import Mathlib

/-!
Shallow embedding of the coordination core of the exposure-notifications
backend: the TTL-based distributed lock (internal/database/lock.go), the
federation-sync bookkeeping (federation database code), the region
authorization predicate, and the federation-query CLI validation.

Database tables are embedded as association lists of rows; a SQL
`SELECT ... WHERE key=$1` that reads one row becomes `List.find?`, an
`UPDATE ... WHERE key=$1` becomes a `List.map` that rewrites every matching
row, a `DELETE ... WHERE key=$1` becomes a `List.filter` that drops every
matching row, and an `INSERT` appends. Timestamps (`time.Time`) are `Int`;
nondeterministic inputs of the Go code (the current wall-clock time, a
generated UUID) are explicit parameters.
-/

/-- Row of the `Lock` table (model.Lock): a named lock with its expiry time. -/
structure Lock where
  LockID : String
  Expires : Int
deriving DecidableEq, Repr

/-- Row of the `FederationQuery` table (model.FederationQuery). -/
structure FederationQuery where
  QueryID : String
  ServerAddr : String
  IncludeRegions : List String
  ExcludeRegions : List String
  LastTimestamp : Int
deriving DecidableEq, Repr

/-- Row of the `FederationSync` table (model.FederationSync). `Completed`,
`Insertions` and `MaxTimestamp` are NULL until the finalize callback runs,
hence `Option`. -/
structure FederationSync where
  SyncID : String
  QueryID : String
  Started : Int
  Completed : Option Int
  Insertions : Option Int
  MaxTimestamp : Option Int
deriving DecidableEq, Repr

/-- The transactional store: the three tables the core reads and writes. -/
structure DB where
  locks : List Lock
  queries : List FederationQuery
  syncs : List FederationSync
deriving DecidableEq, Repr

/-- Outcome of `DB.Lock`: either an unlock handle bound to the lock id
(the Go code returns `buildUnlockFn(ctx, db, lockID)`), or `ErrAlreadyLocked`. -/
inductive LockOutcome where
  | acquired (unlockID : String)
  | alreadyLocked
deriving DecidableEq, Repr

/-- `DB.Lock` from internal/database/lock.go: inside one serializable
transaction, read the lock row by id; if absent, insert `(lockID, now+ttl)`;
if present and expired (`time.Now().After(l.Expires)`, strict), update its
expiry to `now+ttl`; otherwise roll back and return `ErrAlreadyLocked`.
The returned `DB` is the committed state (unchanged on `alreadyLocked`,
because the transaction is rolled back). -/
def DB.Lock (db : DB) (lockID : String) (ttl now : Int) : DB × LockOutcome :=
  match db.locks.find? (fun l => l.LockID == lockID) with
  | some l =>
    if now > l.Expires then
      let updated := db.locks.map
        (fun r => if r.LockID == lockID then { r with Expires := now + ttl } else r)
      ({ db with locks := updated }, .acquired lockID)
    else
      (db, .alreadyLocked)
  | none =>
    ({ db with locks := db.locks ++ [⟨lockID, now + ttl⟩] }, .acquired lockID)

/-- `buildUnlockFn` from internal/database/lock.go: the unlock handle deletes
every `Lock` row whose id matches, in its own transaction, and returns no
error (`.ok`) on every path that reaches the store. -/
def buildUnlockFn (db : DB) (lockID : String) : Except String DB :=
  .ok { db with locks := db.locks.filter (fun l => !(l.LockID == lockID)) }

/-- `getFederationQuery`: `SELECT ... FROM FederationQuery WHERE query_id=$1`,
`none` standing for `ErrNotFound`. -/
def GetFederationQuery (db : DB) (queryID : String) : Option FederationQuery :=
  db.queries.find? (fun q => q.QueryID == queryID)

/-- `DB.AddFederationQuery`: in one serializable transaction, look the query
id up; if a row exists, `DELETE FROM FederationQuery WHERE query_id=$1`; then
insert the new row. -/
def DB.AddFederationQuery (db : DB) (q : FederationQuery) : DB :=
  let existing := (GetFederationQuery db q.QueryID).isSome
  let remaining := if existing
    then db.queries.filter (fun r => !(r.QueryID == q.QueryID))
    else db.queries
  { db with queries := remaining ++ [q] }

/-- What the finalize closure returned by `StartFederationSync` captures:
the generated sync id, the owning query id, the caller-supplied start time
and the local wall-clock reference `startedTimer` taken at call time. -/
structure SyncHandle where
  syncID : String
  queryID : String
  started : Int
  startedTimer : Int
deriving DecidableEq, Repr

/-- `DB.StartFederationSync`: inserts a `FederationSync` row holding the
generated sync id, the owning query id and the caller-supplied start time
(completion fields NULL), and returns the handle the finalize closure
captures. The generated UUID `syncID` and the wall-clock reading
`startedTimer` are explicit parameters. -/
def DB.StartFederationSync (db : DB) (q : FederationQuery) (started : Int)
    (syncID : String) (startedTimer : Int) : DB × SyncHandle :=
  ({ db with syncs := db.syncs ++ [⟨syncID, q.QueryID, started, none, none, none⟩] },
   ⟨syncID, q.QueryID, started, startedTimer⟩)

/-- Body of the finalize closure built by `DB.StartFederationSync`: inside one
serializable transaction, compute `completed = started + (now - startedTimer)`;
if `totalInserted > 0`, `UPDATE FederationQuery SET last_timestamp = maxTimestamp`
for the owning query id; then unconditionally `UPDATE FederationSync` with the
completion time, insertion count and observed max timestamp. `now` is the
wall-clock reading `time.Now().UTC()` taken inside the call. -/
def finalizeSync (db : DB) (h : SyncHandle) (now maxTimestamp totalInserted : Int) : DB :=
  let completed := h.started + (now - h.startedTimer)
  let queries := if totalInserted > 0
    then db.queries.map
      (fun q => if q.QueryID == h.queryID then { q with LastTimestamp := maxTimestamp } else q)
    else db.queries
  let syncs := db.syncs.map
    (fun s => if s.SyncID == h.syncID then
        { s with Completed := some completed,
                 Insertions := some totalInserted,
                 MaxTimestamp := some maxTimestamp }
      else s)
  { db with queries := queries, syncs := syncs }

/-- One invocation of a core store operation, for stating non-interference:
everything in the repository that writes the store. -/
inductive Op where
  | lock (lockID : String) (ttl now : Int)
  | unlock (lockID : String)
  | addQuery (q : FederationQuery)
  | startSync (q : FederationQuery) (started : Int) (syncID : String) (startedTimer : Int)
  | finalize (h : SyncHandle) (now maxTimestamp totalInserted : Int)
deriving DecidableEq, Repr

/-- Apply one store operation: dispatch to the embedded Go functions. -/
def applyOp (db : DB) : Op → DB
  | .lock id ttl now => (DB.Lock db id ttl now).1
  | .unlock id =>
    match buildUnlockFn db id with
    | .ok db' => db'
    | .error _ => db
  | .addQuery q => db.AddFederationQuery q
  | .startSync q started syncID timer => (DB.StartFederationSync db q started syncID timer).1
  | .finalize h now maxT total => finalizeSync db h now maxT total

/-- Per-caller authorization policy (model.APIConfig), restricted to the
fields region verification reads. `AllowedRegions` is the key set of the Go
`map[string]bool` (the Go code only ever stores `true`). -/
structure APIConfig where
  AppPackageName : String
  AllowAllRegions : Bool
  AllowedRegions : List String
deriving DecidableEq, Repr

/-- A publish request (model.Publish), restricted to the requested regions. -/
structure Publish where
  Regions : List String
deriving DecidableEq, Repr

/-- Modelled from the spec: `VerifyRegions` — the file
internal/verification/verify.go is not among the source files, only its test
is. Per the spec: with no config every request fails (the test expects the
message "no allowed regions configured"); with `AllowAllRegions` every
request is accepted; otherwise every requested region must be in the allowed
set, and the first unauthorized one produces an error naming the caller and
the region, with the exact text the test expects. `none` is success. -/
def VerifyRegions (cfg : Option APIConfig) (data : Publish) : Option String :=
  match cfg with
  | none => some "no allowed regions configured"
  | some c =>
    if c.AllowAllRegions then none
    else
      match data.Regions.find? (fun r => !(c.AllowedRegions.contains r)) with
      | some r => some ("application '" ++ c.AppPackageName ++
          "' tried to write unauthorized region: '" ++ r ++ "'")
      | none => none

/-- Lowercase letter, the class `[a-z]`. -/
def isLowerAlpha (c : Char) : Bool := 'a' ≤ c && c ≤ 'z'

/-- Decimal digit, the class `[0-9]`. -/
def isDigitChar (c : Char) : Bool := '0' ≤ c && c ≤ '9'

/-- Lowercase alphanumeric, the class `[a-z0-9]`. -/
def isLowerAlnum (c : Char) : Bool := isLowerAlpha c || isDigitChar c

/-- Interior character of a query id, the class `[a-z0-9-_]`. -/
def isQueryIDMid (c : Char) : Bool := isLowerAlnum c || c == '-' || c == '_'

/-- Host character of a server address, the class `[a-z0-9.-]`. -/
def isHostChar (c : Char) : Bool := isLowerAlnum c || c == '.' || c == '-'

/-- The part of the query-id regex after its first character:
`[a-z0-9-_]*[a-z0-9]` as an anchored language — nonempty, interior characters
in the middle class, last character lowercase alphanumeric. -/
def validQueryIDTail : List Char → Bool
  | [] => false
  | [c] => isLowerAlnum c
  | c :: cs => isQueryIDMid c && validQueryIDTail cs

/-- The CLI query-id regex `\A[a-z][a-z0-9-_]*[a-z0-9]\z` compiled by
the federation-query tool, as an anchored matcher. -/
def validQueryID (s : String) : Bool :=
  match s.toList with
  | [] => false
  | c :: cs => isLowerAlpha c && validQueryIDTail cs

/-- Rest of the server-address regex once at least one host character has
been consumed: more host characters, optionally followed by `:` and a
nonempty run of digits. -/
def hostThenPort : List Char → Bool
  | [] => true
  | ':' :: cs => !cs.isEmpty && cs.all isDigitChar
  | c :: cs => isHostChar c && hostThenPort cs

/-- The CLI server-address regex `\A[a-z0-9.-]+(:\d+)?\z`, as an anchored
matcher (`:` is not in the host class, so the language splits at the first
colon). -/
def validServerAddr (s : String) : Bool :=
  match s.toList with
  | [] => false
  | c :: cs => isHostChar c && hostThenPort cs

/-- Stated from the words of the spec, for comparison with `validQueryID`
(the regex the code compiles): a query id of lowercase alphanumerics, hyphens
and underscores, starting and ending with a lowercase alphanumeric. For
strings of length at least two this is `[a-z0-9][a-z0-9-_]*[a-z0-9]`; a
single alphanumeric character starts and ends with an alphanumeric. -/
def specQueryIDPattern (s : String) : Bool :=
  match s.toList with
  | [] => false
  | [c] => isLowerAlnum c
  | c :: cs => isLowerAlnum c && validQueryIDTail cs

/-- Result of one run of the federation-query CLI: `log.Fatalf` (process
exits nonzero) with a message, or a successful `AddFederationQuery` call. -/
inductive CLIOutcome where
  | fatalExit (msg : String)
  | added (q : FederationQuery)
deriving DecidableEq, Repr

/-- The main function of the federation-query CLI tool: validate the query
id (required, then against the query-id regex), validate the server address
(required, then against the address regex), parse the optional RFC3339
last-timestamp (empty means the zero time), build the `FederationQuery` and
invoke `AddFederationQuery`. The RFC3339 parser is an external collaborator,
passed as a function; the returned `DB` is the store after the run. -/
def cliMain (parseRFC3339 : String → Option Int)
    (queryID serverAddr lastTimestamp : String)
    (includeRegions excludeRegions : List String) (db : DB) : CLIOutcome × DB :=
  if queryID == "" then (.fatalExit "query-id is required", db)
  else if !validQueryID queryID then
    (.fatalExit ("query-id " ++ queryID ++ " must match the pattern"), db)
  else if serverAddr == "" then (.fatalExit "server-addr is required", db)
  else if !validServerAddr serverAddr then
    (.fatalExit ("server-addr " ++ serverAddr ++ " must match the pattern"), db)
  else
    match (if lastTimestamp == "" then some 0 else parseRFC3339 lastTimestamp) with
    | none => (.fatalExit "failed to parse --last-timestamp (use RFC3339)", db)
    | some lastTime =>
      let q : FederationQuery :=
        ⟨queryID, serverAddr, includeRegions, excludeRegions, lastTime⟩
      (.added q, db.AddFederationQuery q)

/-- Helper: `find?` over a map that rewrites exactly the rows matching the
predicate, when the rewrite preserves the predicate: the first match is the
rewritten first match of the original list (the embedding of
`UPDATE ... WHERE` followed by `SELECT ... WHERE` on the same key). -/
theorem find?_map_update {α : Type} (p : α → Bool) (f : α → α) (l : List α)
    (hf : ∀ a, p a = true → p (f a) = true) :
    (l.map fun a => if p a then f a else a).find? p = (l.find? p).map f := by
  induction l with
  | nil => rfl
  | cons a l ih =>
    by_cases ha : p a = true
    · simp [List.find?, ha, hf a ha]
    · simp only [Bool.not_eq_true] at ha
      simp [List.find?, ha, ih]

/-- Helper: `find?` is unchanged by a map that fixes every row matching the
predicate and never makes a non-matching row match (the embedding of an
`UPDATE ... WHERE` on a different key). -/
theorem find?_map_fix {α : Type} (p : α → Bool) (g : α → α) (l : List α)
    (h1 : ∀ a, p a = true → g a = a) (h2 : ∀ a, p (g a) = p a) :
    (l.map g).find? p = l.find? p := by
  induction l with
  | nil => rfl
  | cons a l ih =>
    by_cases ha : p a = true
    · simp [List.find?, h1 a ha, ha]
    · simp only [Bool.not_eq_true] at ha
      have : p (g a) = false := by rw [h2]; exact ha
      simp [List.find?, this, ha, ih]

/-- Helper: `find?` over an appended singleton when the first part has no
match (the embedding of `INSERT` then `SELECT` on a previously absent key). -/
theorem find?_append_singleton {α : Type} (p : α → Bool) (l : List α) (a : α)
    (hl : l.find? p = none) (ha : p a = true) :
    (l ++ [a]).find? p = some a := by
  induction l with
  | nil => simp [List.find?, ha]
  | cons b l ih =>
    rw [List.find?_cons] at hl
    cases hb : p b with
    | true => simp [hb] at hl
    | false =>
      simp only [hb] at hl
      simpa [List.find?, hb] using ih hl

/-- Helper: `find?` over an appended singleton still returns the match found
in the first part (an `INSERT` does not disturb an existing row). -/
theorem find?_append_of_found {α : Type} (p : α → Bool) (l : List α) (a x : α)
    (hl : l.find? p = some x) : (l ++ [a]).find? p = some x := by
  induction l with
  | nil => simp [List.find?] at hl
  | cons b l ih =>
    rw [List.find?_cons] at hl
    cases hb : p b with
    | true =>
      simp only [hb] at hl
      simpa [List.find?, hb] using hl
    | false =>
      simp only [hb] at hl
      simpa [List.find?, hb] using ih hl

/-- Helper: a successful `DB.Lock` leaves exactly the acquired lock row under
the requested id with expiry `now + ttl`, in both the insert and the steal
branches. -/
theorem Lock_acquired_find (db : DB) (id : String) (ttl now : Int) (db1 : DB) (u : String)
    (h : DB.Lock db id ttl now = (db1, .acquired u)) :
    db1.locks.find? (fun l => l.LockID == id) = some ⟨id, now + ttl⟩ := by
  unfold DB.Lock at h
  cases hfd : db.locks.find? (fun l => l.LockID == id) with
  | none =>
    rw [hfd] at h
    simp only [Prod.mk.injEq] at h
    rw [← h.1]
    exact find?_append_singleton _ _ _ hfd (by simp)
  | some l =>
    rw [hfd] at h
    by_cases hlt : now > l.Expires
    · simp only [hlt, if_pos, Prod.mk.injEq] at h
      rw [← h.1]
      have hupd := find?_map_update (fun r => r.LockID == id)
        (fun r => { r with Expires := now + ttl }) db.locks (fun a ha => ha)
      simp only [hupd, hfd, Option.map_some]
      have hid : l.LockID = id := by
        have := List.find?_some hfd
        simpa using this
      cases l
      simp_all
    · simp only [hlt, if_neg, Prod.mk.injEq, not_false_iff] at h
      exact absurd h.2 (by simp)

/-- Helper: after any successful acquire, a second acquire attempt on the same
id at a time not past the new expiry returns `alreadyLocked`. -/
theorem Lock_acquired_then_locked (db db1 : DB) (id u : String) (ttl1 now1 ttl2 now2 : Int)
    (h : DB.Lock db id ttl1 now1 = (db1, .acquired u)) (hoverlap : now2 ≤ now1 + ttl1) :
    (DB.Lock db1 id ttl2 now2).2 = .alreadyLocked := by
  have hf := Lock_acquired_find db id ttl1 now1 db1 u h
  unfold DB.Lock
  rw [hf]
  simp [not_lt.mpr hoverlap]

/-- C1: `acquire(lockId, ttl)` against a store state: with no lock row for the
id, a row with expiry `now+ttl` is inserted and a handle is returned; with an
expired row, its expiry is updated to `now+ttl` (lock steal) and a handle is
returned; with an unexpired row, no write occurs and `ErrAlreadyLocked` is
returned. -/
theorem lock_acquire_cases (db : DB) (id : String) (ttl now : Int) :
    (db.locks.find? (fun l => l.LockID == id) = none →
      DB.Lock db id ttl now =
        ({ db with locks := db.locks ++ [⟨id, now + ttl⟩] }, .acquired id))
    ∧ (∀ l0, db.locks.find? (fun l => l.LockID == id) = some l0 → now > l0.Expires →
      (DB.Lock db id ttl now).2 = .acquired id ∧
      (DB.Lock db id ttl now).1.locks.find? (fun l => l.LockID == id) =
        some ⟨id, now + ttl⟩)
    ∧ (∀ l0, db.locks.find? (fun l => l.LockID == id) = some l0 → ¬ now > l0.Expires →
      DB.Lock db id ttl now = (db, .alreadyLocked)) := by
  refine ⟨?_, ?_, ?_⟩
  · intro h
    unfold DB.Lock
    rw [h]
  · intro l0 hf hlt
    have h2 : (DB.Lock db id ttl now).2 = .acquired id := by
      unfold DB.Lock
      rw [hf]
      simp [hlt]
    refine ⟨h2, ?_⟩
    have hpair : DB.Lock db id ttl now = ((DB.Lock db id ttl now).1, .acquired id) := by
      rw [← h2]
    exact Lock_acquired_find db id ttl now _ id hpair
  · intro l0 hf hnlt
    unfold DB.Lock
    rw [hf]
    simp [hnlt]

/-- Witness for C1: the three cases of `lock_acquire_cases` at concrete
stores. -/
theorem lock_acquire_cases_witness :
    DB.Lock ⟨[], [], []⟩ "job" 10 100 =
      ({ locks := [⟨"job", 110⟩], queries := [], syncs := [] }, .acquired "job")
    ∧ ((DB.Lock ⟨[⟨"job", 50⟩], [], []⟩ "job" 10 100).2 = .acquired "job"
      ∧ (DB.Lock ⟨[⟨"job", 50⟩], [], []⟩ "job" 10 100).1.locks.find?
          (fun l => l.LockID == "job") = some ⟨"job", 110⟩)
    ∧ DB.Lock ⟨[⟨"job", 200⟩], [], []⟩ "job" 10 100 =
        (⟨[⟨"job", 200⟩], [], []⟩, .alreadyLocked) := by
  refine ⟨?_, ?_, ?_⟩
  · exact (lock_acquire_cases ⟨[], [], []⟩ "job" 10 100).1 (by decide)
  · exact (lock_acquire_cases ⟨[⟨"job", 50⟩], [], []⟩ "job" 10 100).2.1
      ⟨"job", 50⟩ (by decide) (by decide)
  · exact (lock_acquire_cases ⟨[⟨"job", 200⟩], [], []⟩ "job" 10 100).2.2
      ⟨"job", 200⟩ (by decide) (by decide)

/-- C2: two acquires on the same id, run in the serial order the serializable
isolation level guarantees, never both succeed when the second attempt falls
inside the TTL window of the first; and when the id is free (no row, or an
expired row) the first succeeds and the second gets `alreadyLocked` — exactly
one obtains the lock. -/
theorem lock_mutual_exclusion (db : DB) (id : String) (ttl1 now1 ttl2 now2 : Int)
    (hoverlap : now2 ≤ now1 + ttl1) :
    (∀ db1 u, DB.Lock db id ttl1 now1 = (db1, .acquired u) →
      (DB.Lock db1 id ttl2 now2).2 = .alreadyLocked)
    ∧ ((∀ l0, db.locks.find? (fun l => l.LockID == id) = some l0 → now1 > l0.Expires) →
      (DB.Lock db id ttl1 now1).2 = .acquired id ∧
      (DB.Lock (DB.Lock db id ttl1 now1).1 id ttl2 now2).2 = .alreadyLocked) := by
  constructor
  · intro db1 u h
    exact Lock_acquired_then_locked db db1 id u ttl1 now1 ttl2 now2 h hoverlap
  · intro hfree
    have h1 : (DB.Lock db id ttl1 now1).2 = .acquired id := by
      unfold DB.Lock
      cases hfd : db.locks.find? (fun l => l.LockID == id) with
      | none => simp
      | some l0 => simp [hfree l0 hfd]
    refine ⟨h1, ?_⟩
    have hpair : DB.Lock db id ttl1 now1 = ((DB.Lock db id ttl1 now1).1, .acquired id) := by
      rw [← h1]
    exact Lock_acquired_then_locked db _ id id ttl1 now1 ttl2 now2 hpair hoverlap

/-- Witness for C2: on an empty store, the first acquire at time 100 with TTL
10 succeeds and a second acquire at time 105 is refused. -/
theorem lock_mutual_exclusion_witness :
    (DB.Lock ⟨[], [], []⟩ "job" 10 100).2 = .acquired "job"
    ∧ (DB.Lock (DB.Lock ⟨[], [], []⟩ "job" 10 100).1 "job" 5 105).2 = .alreadyLocked :=
  (lock_mutual_exclusion ⟨[], [], []⟩ "job" 10 100 5 105 (by decide)).2
    (fun l0 hl => by simp at hl)

/-- C8: the release handle deletes whatever `Lock` rows currently carry the
lock id — with no check of who holds the lock or whether it was stolen — the
resulting table holds no row with the id, and the call returns success even
when no such row exists (in which case the store is unchanged). -/
theorem unlock_spec (db : DB) (id : String) :
    buildUnlockFn db id =
      .ok { db with locks := db.locks.filter (fun l => !(l.LockID == id)) }
    ∧ (∀ db', buildUnlockFn db id = .ok db' →
      db'.locks.find? (fun l => l.LockID == id) = none)
    ∧ (db.locks.find? (fun l => l.LockID == id) = none → buildUnlockFn db id = .ok db) := by
  refine ⟨rfl, ?_, ?_⟩
  · intro db' h
    unfold buildUnlockFn at h
    injection h with h
    rw [← h]
    rw [List.find?_eq_none]
    intro x hx
    have hm := List.mem_filter.mp hx
    simpa using hm.2
  · intro h
    have hkeep : db.locks.filter (fun l => !(l.LockID == id)) = db.locks := by
      apply List.filter_eq_self.mpr
      intro a ha
      have := List.find?_eq_none.mp h a ha
      simpa using this
    unfold buildUnlockFn
    rw [hkeep]

/-- Witness for C8: releasing the held lock empties the table; releasing when
no row exists still returns success with the store unchanged. -/
theorem unlock_spec_witness :
    buildUnlockFn ⟨[⟨"job", 110⟩], [], []⟩ "job" = .ok (⟨[], [], []⟩ : DB)
    ∧ buildUnlockFn ⟨[], [], []⟩ "job" = .ok (⟨[], [], []⟩ : DB) := by
  constructor
  · have h := (unlock_spec ⟨[⟨"job", 110⟩], [], []⟩ "job").1
    rw [h]
    rfl
  · exact (unlock_spec ⟨[], [], []⟩ "job").2.2 rfl

/-- Helper: after `AddFederationQuery q`, the rows carrying the id of `q` are
exactly `[q]`, whether or not a row existed before. -/
theorem AddFederationQuery_filter (db : DB) (q : FederationQuery) :
    (db.AddFederationQuery q).queries.filter (fun r => r.QueryID == q.QueryID) = [q] := by
  unfold DB.AddFederationQuery GetFederationQuery
  cases hfd : db.queries.find? (fun r => r.QueryID == q.QueryID) with
  | none =>
    have hnil : db.queries.filter (fun r => r.QueryID == q.QueryID) = [] := by
      rw [List.filter_eq_nil_iff]
      intro a ha
      exact List.find?_eq_none.mp hfd a ha
    simp [hfd, List.filter_append, hnil]
  | some r0 =>
    have hnil : (db.queries.filter (fun r => !(r.QueryID == q.QueryID))).filter
        (fun r => r.QueryID == q.QueryID) = [] := by
      rw [List.filter_eq_nil_iff]
      intro a ha
      have := (List.mem_filter.mp ha).2
      simpa using this
    simp [hfd, List.filter_append, hnil]

/-- Helper: looking the query id up right after `AddFederationQuery q`
returns `q` itself. -/
theorem AddFederationQuery_get (db : DB) (q : FederationQuery) :
    GetFederationQuery (db.AddFederationQuery q) q.QueryID = some q := by
  unfold GetFederationQuery DB.AddFederationQuery GetFederationQuery
  cases hfd : db.queries.find? (fun r => r.QueryID == q.QueryID) with
  | none =>
    simp only [hfd, Option.isSome_none, Bool.false_eq_true, if_neg, ite_false]
    exact find?_append_singleton _ _ _ hfd (by simp)
  | some r0 =>
    simp only [hfd, Option.isSome_some, ite_true]
    refine find?_append_singleton _ _ _ ?_ (by simp)
    rw [List.find?_eq_none]
    intro a ha
    have := (List.mem_filter.mp ha).2
    simpa using this

/-- C5: two `AddFederationQuery` calls with the same query id, in order, leave
exactly one row with that id, holding the second call's values (the replace is
delete-then-insert inside one transaction in the embedding — `finishTx`
commits it atomically — never a merge), and a lookup afterward returns the
second call's row. -/
theorem addQuery_replace (db : DB) (q1 q2 : FederationQuery)
    (_hid : q1.QueryID = q2.QueryID) :
    ((db.AddFederationQuery q1).AddFederationQuery q2).queries.filter
      (fun r => r.QueryID == q2.QueryID) = [q2]
    ∧ GetFederationQuery ((db.AddFederationQuery q1).AddFederationQuery q2) q2.QueryID
      = some q2 := by
  refine ⟨AddFederationQuery_filter (db.AddFederationQuery q1) q2, ?_⟩
  exact AddFederationQuery_get (db.AddFederationQuery q1) q2

/-- Witness for C5: adding id "q" twice with different peer addresses leaves
the single row of the second call. -/
theorem addQuery_replace_witness :
    (((⟨[], [], []⟩ : DB).AddFederationQuery
        ⟨"q", "peer-one:443", [], [], 0⟩).AddFederationQuery
        ⟨"q", "peer-two:443", ["US"], [], 5⟩).queries.filter
      (fun r => r.QueryID == "q") = [⟨"q", "peer-two:443", ["US"], [], 5⟩]
    ∧ GetFederationQuery (((⟨[], [], []⟩ : DB).AddFederationQuery
        ⟨"q", "peer-one:443", [], [], 0⟩).AddFederationQuery
        ⟨"q", "peer-two:443", ["US"], [], 5⟩) "q"
      = some ⟨"q", "peer-two:443", ["US"], [], 5⟩ :=
  addQuery_replace ⟨[], [], []⟩ ⟨"q", "peer-one:443", [], [], 0⟩
    ⟨"q", "peer-two:443", ["US"], [], 5⟩ rfl

/-- Helper: a finalize with no insertions (`totalInserted ≤ 0`) leaves the
`FederationQuery` table — hence every stored cursor — untouched. -/
theorem finalizeSync_queries_nonpos (db : DB) (h : SyncHandle)
    (now maxT total : Int) (ht : total ≤ 0) :
    (finalizeSync db h now maxT total).queries = db.queries := by
  simp [finalizeSync, not_lt.mpr ht]

/-- C3: a finalize with `totalInserted > 0` sets the owning query's stored
cursor (`last_timestamp`) to `maxTimestamp`; one with `totalInserted = 0`
leaves the query table unchanged, and so any sequence of zero-insertion
finalize calls leaves every cursor identical. -/
theorem finalize_cursor (db : DB) (h : SyncHandle) (now maxT total : Int) :
    (total ≤ 0 → (finalizeSync db h now maxT total).queries = db.queries)
    ∧ (0 < total → ∀ q0,
      db.queries.find? (fun r => r.QueryID == h.queryID) = some q0 →
      (finalizeSync db h now maxT total).queries.find? (fun r => r.QueryID == h.queryID)
        = some { q0 with LastTimestamp := maxT })
    ∧ (∀ calls : List (SyncHandle × Int × Int),
      (calls.foldl (fun d c => finalizeSync d c.1 c.2.1 c.2.2 0) db).queries
        = db.queries) := by
  refine ⟨fun ht => finalizeSync_queries_nonpos db h now maxT total ht, ?_, ?_⟩
  · intro ht q0 hq
    simp only [finalizeSync, if_pos ht]
    rw [find?_map_update (fun r => r.QueryID == h.queryID)
      (fun q => { q with LastTimestamp := maxT }) db.queries (fun a ha => ha), hq]
    rfl
  · intro calls
    induction calls generalizing db with
    | nil => rfl
    | cons c cs ih =>
      rw [List.foldl_cons, ih]
      exact finalizeSync_queries_nonpos db c.1 c.2.1 c.2.2 0 le_rfl

/-- Witness for C3: on a store holding query "q" with cursor 0, a finalize
with 2 insertions moves the cursor to 9; a zero-insertion finalize, and a
sequence of two zero-insertion finalize calls, leave the table unchanged. -/
theorem finalize_cursor_witness :
    ((finalizeSync ⟨[], [⟨"q", "a", [], [], 0⟩], [⟨"s1", "q", 0, none, none, none⟩]⟩
        ⟨"s1", "q", 0, 0⟩ 5 9 0).queries = [⟨"q", "a", [], [], 0⟩])
    ∧ ((finalizeSync ⟨[], [⟨"q", "a", [], [], 0⟩], [⟨"s1", "q", 0, none, none, none⟩]⟩
        ⟨"s1", "q", 0, 0⟩ 5 9 2).queries.find? (fun r => r.QueryID == "q")
      = some ⟨"q", "a", [], [], 9⟩)
    ∧ (([(⟨"s1", "q", 0, 0⟩, 5, 9), (⟨"s1", "q", 0, 0⟩, 6, 11)] :
          List (SyncHandle × Int × Int)).foldl
        (fun d c => finalizeSync d c.1 c.2.1 c.2.2 0)
        ⟨[], [⟨"q", "a", [], [], 0⟩], [⟨"s1", "q", 0, none, none, none⟩]⟩).queries
      = [⟨"q", "a", [], [], 0⟩] := by
  refine ⟨?_, ?_, ?_⟩
  · exact (finalize_cursor ⟨[], [⟨"q", "a", [], [], 0⟩],
      [⟨"s1", "q", 0, none, none, none⟩]⟩ ⟨"s1", "q", 0, 0⟩ 5 9 0).1 (by decide)
  · exact (finalize_cursor ⟨[], [⟨"q", "a", [], [], 0⟩],
      [⟨"s1", "q", 0, none, none, none⟩]⟩ ⟨"s1", "q", 0, 0⟩ 5 9 2).2.1 (by decide)
      ⟨"q", "a", [], [], 0⟩ (by decide)
  · exact (finalize_cursor ⟨[], [⟨"q", "a", [], [], 0⟩],
      [⟨"s1", "q", 0, none, none, none⟩]⟩ ⟨"s1", "q", 0, 0⟩ 0 0 0).2.2
      [(⟨"s1", "q", 0, 0⟩, 5, 9), (⟨"s1", "q", 0, 0⟩, 6, 11)]

/-- C4 fails on the code: finalize does no cursor comparison, so a call with
`totalInserted > 0` and a `maxTimestamp` below the stored cursor moves the
cursor backward. Query "q" has cursor 5 (set by observed data); a finalize
reporting one insertion with max timestamp 3 drops the cursor to 3 < 5. -/
theorem cursor_monotonic_cex :
    GetFederationQuery
      (⟨[], [⟨"q", "a", [], [], 5⟩], [⟨"s1", "q", 0, none, none, none⟩]⟩ : DB) "q"
      = some ⟨"q", "a", [], [], 5⟩
    ∧ GetFederationQuery
      (finalizeSync (⟨[], [⟨"q", "a", [], [], 5⟩], [⟨"s1", "q", 0, none, none, none⟩]⟩ : DB)
        ⟨"s1", "q", 0, 0⟩ 1 3 1) "q"
      = some ⟨"q", "a", [], [], 3⟩
    ∧ (3 : Int) < 5 := by
  refine ⟨rfl, rfl, by decide⟩

/-- C4 amended: the cursor never decreases provided every finalize that
reports insertions supplies a `maxTimestamp` at least the stored cursor (as
the testable-properties section conditions it); zero-insertion calls leave it
untouched unconditionally. -/
theorem finalize_cursor_monotonic (db : DB) (h : SyncHandle)
    (now maxT total : Int) (q0 : FederationQuery)
    (hq : db.queries.find? (fun r => r.QueryID == h.queryID) = some q0)
    (hmax : 0 < total → q0.LastTimestamp ≤ maxT) :
    ∃ q1, (finalizeSync db h now maxT total).queries.find?
        (fun r => r.QueryID == h.queryID) = some q1
      ∧ q0.LastTimestamp ≤ q1.LastTimestamp := by
  by_cases ht : 0 < total
  · refine ⟨{ q0 with LastTimestamp := maxT }, ?_, hmax ht⟩
    simp only [finalizeSync, if_pos ht]
    rw [find?_map_update (fun r => r.QueryID == h.queryID)
      (fun q => { q with LastTimestamp := maxT }) db.queries (fun a ha => ha), hq]
    rfl
  · refine ⟨q0, ?_, le_refl _⟩
    rw [finalizeSync_queries_nonpos db h now maxT total (by omega), hq]

/-- Witness for the amended C4: query "q" with cursor 4, finalize reporting 2
insertions with max timestamp 9 ≥ 4. -/
theorem finalize_cursor_monotonic_witness :
    ∃ q1, (finalizeSync (⟨[], [⟨"q", "a", [], [], 4⟩], []⟩ : DB)
        ⟨"s1", "q", 0, 0⟩ 5 9 2).queries.find? (fun r => r.QueryID == "q") = some q1
      ∧ (⟨"q", "a", [], [], 4⟩ : FederationQuery).LastTimestamp ≤ q1.LastTimestamp :=
  finalize_cursor_monotonic ⟨[], [⟨"q", "a", [], [], 4⟩], []⟩ ⟨"s1", "q", 0, 0⟩ 5 9 2
    ⟨"q", "a", [], [], 4⟩ (by decide) (fun _ => by decide)

/-- Helper: `find?` by sync id over the `UPDATE FederationSync ... WHERE
sync_id=$1` map is the update of the first matching row. -/
theorem find?_syncs_update (l : List FederationSync) (sid : String) (c i m : Option Int) :
    (l.map fun s => if s.SyncID == sid then
        { s with Completed := c, Insertions := i, MaxTimestamp := m } else s).find?
      (fun s => s.SyncID == sid)
      = (l.find? (fun s => s.SyncID == sid)).map
        (fun s => { s with Completed := c, Insertions := i, MaxTimestamp := m }) := by
  induction l with
  | nil => rfl
  | cons a l ih =>
    by_cases ha : (a.SyncID == sid) = true
    · have hp : ((⟨a.SyncID, a.QueryID, a.Started, c, i, m⟩ : FederationSync).SyncID == sid)
          = true := ha
      rw [List.map_cons, if_pos ha, List.find?_cons_of_pos, List.find?_cons_of_pos]
      all_goals (first | rfl | exact hp)
    · rw [List.map_cons, if_neg ha, List.find?_cons_of_neg, List.find?_cons_of_neg, ih]
      all_goals exact ha

/-- C6: starting a sync (fresh id) and then finalizing it — with any
insertion count, cursor moved or not — leaves the history row with
`insertions = totalInserted`, `max_timestamp = maxTimestamp` and
`completed = started + (now - startedTimer)`: the caller-supplied start time
plus the wall clock elapsed since `StartFederationSync` ran. -/
theorem start_finalize_history (db : DB) (q : FederationQuery) (started : Int)
    (syncID : String) (timer now maxT total : Int)
    (hfresh : db.syncs.find? (fun s => s.SyncID == syncID) = none) :
    (finalizeSync (DB.StartFederationSync db q started syncID timer).1
        (DB.StartFederationSync db q started syncID timer).2 now maxT total).syncs.find?
      (fun s => s.SyncID == syncID)
      = some ⟨syncID, q.QueryID, started, some (started + (now - timer)),
          some total, some maxT⟩ := by
  simp only [DB.StartFederationSync, finalizeSync]
  rw [find?_syncs_update, find?_append_singleton _ _ _ hfresh (by simp)]
  rfl

/-- Witness for C6: empty history, start at nominal time 100 with wall clock
7, finalize at wall clock 9 with 3 insertions and max timestamp 42: the row
completes at 100 + (9 - 7) = 102 with insertions 3 and max timestamp 42. -/
theorem start_finalize_history_witness :
    (finalizeSync
        (DB.StartFederationSync ⟨[], [⟨"q", "a", [], [], 0⟩], []⟩
          ⟨"q", "a", [], [], 0⟩ 100 "s1" 7).1
        (DB.StartFederationSync ⟨[], [⟨"q", "a", [], [], 0⟩], []⟩
          ⟨"q", "a", [], [], 0⟩ 100 "s1" 7).2 9 42 3).syncs.find?
      (fun s => s.SyncID == "s1")
      = some ⟨"s1", "q", 100, some 102, some 3, some 42⟩ := by
  have h := start_finalize_history ⟨[], [⟨"q", "a", [], [], 0⟩], []⟩
    ⟨"q", "a", [], [], 0⟩ 100 "s1" 7 9 42 3 rfl
  simpa using h

/-- C7 fails on the code: nothing stops the finalize closure from running
twice, and a second invocation of the same closure rewrites the already
completed history row (here its completion time moves from 10 to 20, since
`completed = started + (now - startedTimer)` is recomputed at the later wall
clock). The store/handle pair is what `StartFederationSync` produces on a
one-query store with `started = 0`, `startedTimer = 0`, sync id "s1". -/
theorem sync_immutable_cex :
    ((finalizeSync
        (⟨[], [⟨"q", "a", [], [], 0⟩], [⟨"s1", "q", 0, none, none, none⟩]⟩ : DB)
        ⟨"s1", "q", 0, 0⟩ 10 5 1).syncs.find? (fun s => s.SyncID == "s1")
      = some ⟨"s1", "q", 0, some 10, some 1, some 5⟩)
    ∧ ((finalizeSync (finalizeSync
        (⟨[], [⟨"q", "a", [], [], 0⟩], [⟨"s1", "q", 0, none, none, none⟩]⟩ : DB)
        ⟨"s1", "q", 0, 0⟩ 10 5 1) ⟨"s1", "q", 0, 0⟩ 20 5 1).syncs.find?
        (fun s => s.SyncID == "s1")
      = some ⟨"s1", "q", 0, some 20, some 1, some 5⟩)
    ∧ ((⟨"s1", "q", 0, some 20, some 1, some 5⟩ : FederationSync)
      ≠ ⟨"s1", "q", 0, some 10, some 1, some 5⟩) := by
  refine ⟨rfl, rfl, by decide⟩

/-- Helper: lock acquisition touches only the `Lock` table. -/
theorem Lock_fst_syncs (db : DB) (id : String) (ttl now : Int) :
    (DB.Lock db id ttl now).1.syncs = db.syncs := by
  unfold DB.Lock
  cases db.locks.find? (fun l => l.LockID == id) with
  | none => rfl
  | some l =>
    by_cases hlt : now > l.Expires
    · simp [hlt]
    · simp [hlt]

/-- C7 amended: a history row (in particular a completed one) is changed by
no store operation except a finalize invocation carrying that row's own sync
id; re-invoking the very closure tied to the row's creation, however, does
rewrite it (see the counterexample), so immutability holds only against
every *other* operation. -/
theorem sync_row_immutable (db : DB) (sid : String) (r : FederationSync) (op : Op)
    (hr : db.syncs.find? (fun s => s.SyncID == sid) = some r)
    (_hc : r.Completed.isSome = true)
    (hop : ∀ h now maxT total, op = Op.finalize h now maxT total → h.syncID ≠ sid) :
    (applyOp db op).syncs.find? (fun s => s.SyncID == sid) = some r := by
  cases op with
  | lock id ttl now =>
    simp only [applyOp]
    rw [Lock_fst_syncs]
    exact hr
  | unlock id =>
    simp only [applyOp, buildUnlockFn]
    exact hr
  | addQuery q =>
    simp only [applyOp, DB.AddFederationQuery]
    exact hr
  | startSync q started syncID timer =>
    simp only [applyOp, DB.StartFederationSync]
    exact find?_append_of_found _ _ _ _ hr
  | finalize h now maxT total =>
    have hne : h.syncID ≠ sid := hop h now maxT total rfl
    simp only [applyOp, finalizeSync]
    rw [find?_map_fix]
    · exact hr
    · intro a ha2
      have haid : a.SyncID = sid := by simpa using ha2
      have hfa : (a.SyncID == h.syncID) = false := by
        rw [haid]
        exact beq_eq_false_iff_ne.mpr (Ne.symm hne)
      simp [hfa]
    · intro a
      by_cases hA : (a.SyncID == h.syncID) = true
      · simp [hA]
      · simp [hA]

/-- Witness for the amended C7: adding an unrelated query leaves the
completed history row "s1" untouched. -/
theorem sync_row_immutable_witness :
    (applyOp ⟨[], [], [⟨"s1", "q", 0, some 5, some 1, some 9⟩]⟩
        (Op.addQuery ⟨"q2", "a", [], [], 0⟩)).syncs.find?
      (fun s => s.SyncID == "s1") = some ⟨"s1", "q", 0, some 5, some 1, some 9⟩ :=
  sync_row_immutable ⟨[], [], [⟨"s1", "q", 0, some 5, some 1, some 9⟩]⟩ "s1"
    ⟨"s1", "q", 0, some 5, some 1, some 9⟩ (Op.addQuery ⟨"q2", "a", [], [], 0⟩)
    (by decide) (by decide) (fun h now maxT total hEq => nomatch hEq)

/-- C9: region authorization — an allow-all config accepts every region
list; the {US, CA} config accepts [US] and [US, CA] and rejects [MX] with
exactly the error text of the test; a missing config rejects every request. -/
theorem VerifyRegions_spec :
    (∀ rs : List String,
      VerifyRegions (some ⟨"com.example.pkg", true, []⟩) ⟨rs⟩ = none)
    ∧ VerifyRegions (some ⟨"com.example.pkg", false, ["US", "CA"]⟩) ⟨["US"]⟩ = none
    ∧ VerifyRegions (some ⟨"com.example.pkg", false, ["US", "CA"]⟩) ⟨["US", "CA"]⟩ = none
    ∧ VerifyRegions (some ⟨"com.example.pkg", false, ["US", "CA"]⟩) ⟨["MX"]⟩
      = some "application 'com.example.pkg' tried to write unauthorized region: 'MX'"
    ∧ (∀ rs : List String, (VerifyRegions none ⟨rs⟩).isSome = true) := by
  refine ⟨fun rs => rfl, by decide, by decide, by decide, fun rs => rfl⟩

/-- C10 fails as stated: the compiled regex `\A[a-z][a-z0-9-_]*[a-z0-9]\z`
demands a lowercase *letter* first (and at least two characters), while the
documented pattern ("lowercase alphanumeric/hyphen/underscore, starting and
ending with alphanumeric") admits a leading digit: "0a" matches the
documented pattern but the tool exits fatally on it without touching the
store. -/
theorem cli_pattern_cex :
    specQueryIDPattern "0a" = true
    ∧ validQueryID "0a" = false
    ∧ cliMain (fun _ => none) "0a" "example.com" "" [] [] ⟨[], [], []⟩
      = (.fatalExit "query-id 0a must match the pattern", (⟨[], [], []⟩ : DB)) := by
  refine ⟨by decide, by decide, by decide⟩

/-- C10 amended: the CLI accepts a query id exactly when it matches the
compiled regex (lowercase letter first, then `[a-z0-9-_]*`, ending in a
lowercase alphanumeric — at least two characters), and for every query id or
server address failing its regex the run ends in `log.Fatalf` (nonzero exit)
with the store untouched; with both inputs valid and no timestamp flag, the
run invokes `AddFederationQuery` with the second argument's values. -/
theorem cli_validation (parse : String → Option Int)
    (qid addr ts : String) (incl excl : List String) (db : DB) :
    (validQueryID qid = false ∨ validServerAddr addr = false →
      ∃ m, cliMain parse qid addr ts incl excl db = (.fatalExit m, db))
    ∧ (∀ q dbOut, cliMain parse qid addr ts incl excl db = (.added q, dbOut) →
      validQueryID qid = true ∧ validServerAddr addr = true)
    ∧ (validQueryID qid = true → validServerAddr addr = true → ts = "" →
      cliMain parse qid addr ts incl excl db =
        (.added ⟨qid, addr, incl, excl, 0⟩,
         db.AddFederationQuery ⟨qid, addr, incl, excl, 0⟩)) := by
  have partA : validQueryID qid = false ∨ validServerAddr addr = false →
      ∃ m, cliMain parse qid addr ts incl excl db = (.fatalExit m, db) := by
    intro hbad
    by_cases h0 : (qid == "") = true
    · exact ⟨"query-id is required", by simp [cliMain, h0]⟩
    · cases hbad with
      | inl hq =>
        exact ⟨"query-id " ++ qid ++ " must match the pattern", by simp [cliMain, h0, hq]⟩
      | inr ha =>
        by_cases h1 : validQueryID qid = true
        · by_cases h2 : (addr == "") = true
          · exact ⟨"server-addr is required", by simp [cliMain, h0, h1, h2]⟩
          · exact ⟨"server-addr " ++ addr ++ " must match the pattern",
              by simp [cliMain, h0, h1, h2, ha]⟩
        · have hq : validQueryID qid = false := by simpa using h1
          exact ⟨"query-id " ++ qid ++ " must match the pattern", by simp [cliMain, h0, hq]⟩
  refine ⟨partA, ?_, ?_⟩
  · intro q dbOut hEq
    cases hv : validQueryID qid with
    | false =>
      obtain ⟨m, hm⟩ := partA (Or.inl hv)
      rw [hEq] at hm
      simp at hm
    | true =>
      cases hw : validServerAddr addr with
      | false =>
        obtain ⟨m, hm⟩ := partA (Or.inr hw)
        rw [hEq] at hm
        simp at hm
      | true => exact ⟨rfl, rfl⟩
  · intro h1 h2 h3
    have h0 : (qid == "") = false := by
      cases hq0 : (qid == "") with
      | false => rfl
      | true =>
        have hq : qid = "" := by simpa using hq0
        rw [hq] at h1
        exact absurd h1 (by decide)
    have ha0 : (addr == "") = false := by
      cases ha1 : (addr == "") with
      | false => rfl
      | true =>
        have ha : addr = "" := by simpa using ha1
        rw [ha] at h2
        exact absurd h2 (by decide)
    simp [cliMain, h0, h1, h2, ha0, h3]

/-- Witness for the amended C10: "bad_" (ends in an underscore) is rejected
with no write; "good-id" against "example.com:8080" is accepted and stored. -/
theorem cli_validation_witness :
    (∃ m, cliMain (fun _ => none) "bad_" "example.com" "" [] [] ⟨[], [], []⟩
      = (.fatalExit m, (⟨[], [], []⟩ : DB)))
    ∧ cliMain (fun _ => none) "good-id" "example.com:8080" "" [] [] ⟨[], [], []⟩
      = (.added ⟨"good-id", "example.com:8080", [], [], 0⟩,
         DB.AddFederationQuery ⟨[], [], []⟩ ⟨"good-id", "example.com:8080", [], [], 0⟩) := by
  constructor
  · exact (cli_validation (fun _ => none) "bad_" "example.com" "" [] [] ⟨[], [], []⟩).1
      (Or.inl (by decide))
  · exact (cli_validation (fun _ => none) "good-id" "example.com:8080" "" [] []
      ⟨[], [], []⟩).2.2 (by decide) (by decide) rfl
